import Mathlib

/-!
Verification development for the route-tree-to-sitemap generator
(`src/generator.ts` together with `src/types.ts`).

Modelling conventions:
* JS strings are Lean `String` values; the JS string library functions the
  source uses (`includes` on a single character, `startsWith`, `endsWith`,
  `slice(0, -2)`, `trim`, and `replace` with the concrete regexes appearing
  in the source) are embedded as executable Lean functions.
* JS numbers are `Rat`; JS truthiness, where the source relies on it, is
  explicit (`0` and the empty string are falsy, objects are truthy).
* A possibly-`undefined` field is an `Option`, with `none` for an absent
  key.  Passing a key explicitly set to `undefined` (which an object spread
  would copy) is not representable; the claims about defaults assume keys
  are either absent or bound to concrete values.
* The `async` manual-routes provider is modelled by the outcome of its
  single awaited evaluation (`ManualOutcome`); `console.warn` output is
  modelled as a returned list of warning strings.
* The construction-time `new Date().toISOString()` is an explicit `now`
  argument of the constructor embedding.
-/

namespace TanStackSitemap

/-- Embedding of JS `a.startsWith(b)`. -/
def jsStartsWith (s pre : String) : Bool := pre.data.isPrefixOf s.data

/-- Embedding of JS `a.endsWith(b)`. -/
def jsEndsWith (s suf : String) : Bool := suf.data.isSuffixOf s.data

/-- Embedding of JS `s.slice(0, -2)`. -/
def sliceDropTwo (s : String) : String := String.mk s.data.dropLast.dropLast

/-- Embedding of JS `s.trim()`: whitespace removed from both ends. -/
def jsTrim (s : String) : String :=
  String.mk (((s.data.dropWhile Char.isWhitespace).reverse.dropWhile
    Char.isWhitespace).reverse)

/-- Embedding of JS `s.replace(/\/+/g, '/')`: collapse every run of
consecutive slashes into a single slash.  Of each run the last slash is
kept, which produces the same string as keeping the first. -/
def collapseList : List Char → List Char
  | [] => []
  | [c] => [c]
  | c₁ :: c₂ :: rest =>
    if c₁ = '/' && c₂ = '/' then collapseList (c₂ :: rest)
    else c₁ :: collapseList (c₂ :: rest)

/-- String wrapper around `collapseList`. -/
def collapseSlashes (s : String) : String := String.mk (collapseList s.data)

/-- Embedding of JS `s.replace(/c/g, rep)` for a single character `c`:
every occurrence of `c` is replaced by `rep`. -/
def replaceChar (c : Char) (rep : List Char) : List Char → List Char
  | [] => []
  | x :: xs =>
    if x = c then rep ++ replaceChar c rep xs else x :: replaceChar c rep xs

/-- JS `a || b` for a possibly-undefined string `a`: yields `b` exactly
when `a` is absent or the empty string (the falsy cases). -/
def jsOrStr (a : Option String) (b : String) : String :=
  match a with
  | some s => if s = "" then b else s
  | none => b

/-- JS `a || b` for a possibly-undefined number `a`: yields `b` exactly
when `a` is absent or zero (the falsy cases; `NaN` is not modelled). -/
def jsOrNum (a : Option Rat) (b : Rat) : Rat :=
  match a with
  | some p => if p = 0 then b else p
  | none => b

/-- Embedding of JS `n.toFixed(1)` by decimal rounding, half away from
zero.  Exact for the decimal priority values sitemaps use; artifacts of
binary floating point are not modelled. -/
def toFixed1 (q : Rat) : String :=
  let a : Rat := if q < 0 then -q else q
  let n : Nat := (a * 10 + 1 / 2).floor.toNat
  let core := toString (n / 10) ++ "." ++ toString (n % 10)
  if q < 0 then "-" ++ core else core

/-- The double-quote character. -/
def quoteChar : Char := Char.ofNat 34

/-- The apostrophe character. -/
def aposChar : Char := Char.ofNat 39

/-- Output unit: one sitemap `<url>` record (`SitemapEntry` of
`types.ts`).  The `changefreq` enum is modelled by its string value. -/
structure SitemapEntry where
  url : String
  lastmod : Option String
  changefreq : Option String
  priority : Option Rat
deriving DecidableEq

/-- Embedding of TS `Partial<SitemapEntry>`, the per-route override
shape used by `routeOptions`. -/
structure PartialEntry where
  url : Option String
  lastmod : Option String
  changefreq : Option String
  priority : Option Rat
deriving DecidableEq

/-- The empty override object `\x7b\x7d`. -/
def emptyPartial : PartialEntry := ⟨none, none, none, none⟩

/-- Flattened route descriptor (`RouteInfo` of `types.ts`).  The `children`
field of the TS interface is never read or written by the generator and is
not modelled. -/
structure RouteInfo where
  path : String
  includedInSitemap : Option Bool
  sitemapOptions : Option PartialEntry
deriving DecidableEq

/-- A JS value that is either an ISO string or a `Date`; a `Date` is
carried as the ISO string its `toISOString()` returns. -/
inductive DateOrString where
  | date (iso : String)
  | str (value : String)
deriving DecidableEq

/-- Manual route supplied by the caller (`ManualSitemapEntry`). -/
structure ManualSitemapEntry where
  location : String
  priority : Option Rat
  lastMod : Option DateOrString
  changeFrequency : Option String
deriving DecidableEq

/-- Outcome of the single awaited evaluation of the manual-routes
provider: either the entry list it yielded, or the error it threw or
rejected with. -/
inductive ManualOutcome where
  | success (routes : List ManualSitemapEntry)
  | failure (message : String)
deriving DecidableEq

/-- Constructor input (`SitemapOptions` of `types.ts`); `none` models an
absent key. -/
structure SitemapOptions where
  baseUrl : String
  defaultChangefreq : Option String
  defaultPriority : Option Rat
  excludeRoutes : Option (List String)
  routeOptions : Option (List (String × PartialEntry))
  trailingSlash : Option Bool
  lastmod : Option String
  prettyPrint : Option Bool
  manualRoutes : Option ManualOutcome
deriving DecidableEq

/-- Options after the constructor has filled the defaults (the
`Required<...>` typed `options` field of the generator class). -/
structure ResolvedOptions where
  baseUrl : String
  defaultChangefreq : String
  defaultPriority : Rat
  excludeRoutes : List String
  routeOptions : List (String × PartialEntry)
  trailingSlash : Bool
  lastmod : String
  prettyPrint : Bool
  manualRoutes : Option ManualOutcome
deriving DecidableEq

/-- Input route tree node (`TanStackRoute` of `types.ts`); an absent or
non-array `children` is modelled as the empty list, matching the source's
`Array.isArray` check.  The unused `fullPath` and `id` fields are not
modelled. -/
inductive TanStackRoute where
  | node (path : Option String) (children : List TanStackRoute)

/-- Projection of the optional raw path of a node. -/
def TanStackRoute.path : TanStackRoute → Option String
  | .node p _ => p

/-- Projection of the child list of a node. -/
def TanStackRoute.children : TanStackRoute → List TanStackRoute
  | .node _ cs => cs

/-- The class constructor: validates `baseUrl` and fills the defaults by
object spread.  `now` is the injected construction-time
`new Date().toISOString()` value. -/
def mkGenerator (options : SitemapOptions) (now : String) :
    Except String ResolvedOptions :=
  if jsTrim options.baseUrl = "" then
    .error "baseUrl is required and cannot be empty"
  else
    .ok { baseUrl := options.baseUrl
          defaultChangefreq := options.defaultChangefreq.getD "weekly"
          defaultPriority := options.defaultPriority.getD (1 / 2)
          excludeRoutes := options.excludeRoutes.getD []
          routeOptions := options.routeOptions.getD []
          trailingSlash := options.trailingSlash.getD false
          lastmod := options.lastmod.getD now
          prettyPrint := options.prettyPrint.getD true
          manualRoutes := options.manualRoutes }

/-- Dynamic-parameter test: the raw path contains `$`, `[` or `]`
(JS `includes` on a single character is character membership). -/
def isDynamicRoute (routePath : String) : Bool :=
  routePath.data.contains '$' || routePath.data.contains '['
    || routePath.data.contains ']'

/-- Path building for one node (`buildFullPath`). -/
def buildFullPath (parentPath routePath : String) : String :=
  if jsStartsWith routePath "/" then routePath
  else if isDynamicRoute routePath then ""
  else if routePath = "" || routePath = "index" then
    (if parentPath = "" then "/" else parentPath)
  else if routePath = "__root__" then ""
  else
    collapseSlashes
      (if parentPath = "/" then "/" ++ routePath
       else parentPath ++ "/" ++ routePath)

/-- Token of the regex built from an exclusion pattern. -/
inductive GlobToken where
  | lit (c : Char)
  | anyChar
  | anyStar
deriving DecidableEq

/-- Token for a single pattern character: `*` becomes `.*`, `?` becomes
`.`, and a literal `.` already is an any-char in the built regex. -/
def globTokenOf (c : Char) : GlobToken :=
  if c = '*' then .anyStar
  else if c = '?' || c = '.' then .anyChar
  else .lit c

/-- Compilation of an exclusion pattern into the token list of the regex
the source builds (`*`-runs collapse to one `.*` by the `/\*+/g`
replacement).  Other regex metacharacters do not occur in route-exclusion
patterns and are not modelled. -/
def compilePattern : List Char → List GlobToken
  | [] => []
  | [c] => [globTokenOf c]
  | c₁ :: c₂ :: rest =>
    if c₁ = '*' && c₂ = '*' then compilePattern (c₂ :: rest)
    else globTokenOf c₁ :: compilePattern (c₂ :: rest)

mutual

/-- Anchored matching of the compiled pattern against the whole path,
embedding `new RegExp('^' + pattern + '$').test(path)`. -/
def rmatch : List GlobToken → List Char → Bool
  | [], [] => true
  | [], _ :: _ => false
  | .lit c :: ts, x :: xs => c == x && rmatch ts xs
  | .lit _ :: _, [] => false
  | .anyChar :: ts, _ :: xs => rmatch ts xs
  | .anyChar :: _, [] => false
  | .anyStar :: ts, xs => rstar ts xs
termination_by ts xs => 2 * ts.length + 2 * xs.length + 1

/-- Matching of `.*` followed by the remaining tokens: try every suffix of
the candidate. -/
def rstar (ts : List GlobToken) : List Char → Bool
  | [] => rmatch ts []
  | x :: xs => rmatch ts (x :: xs) || rstar ts xs
termination_by xs => 2 * ts.length + 2 * xs.length + 2

end

/-- One exclusion pattern tested against one candidate path: the body of
the `some` callback inside `isExcludedRoute`. -/
def matchesExcludePattern (excludePath path : String) : Bool :=
  if excludePath.data.contains '*' then
    (if jsEndsWith excludePath "/*" then
       (path == sliceDropTwo excludePath
         || jsStartsWith path (sliceDropTwo excludePath ++ "/"))
     else false)
    || rmatch (compilePattern excludePath.data) path.data
  else path == excludePath

/-- Exclusion test over all configured patterns (`isExcludedRoute`). -/
def isExcludedRoute (opts : ResolvedOptions) (path : String) : Bool :=
  opts.excludeRoutes.any fun excludePath => matchesExcludePattern excludePath path

/-- Embedding of the record lookup `routeOptions[fullPath]`. -/
def lookupRouteOptions (ros : List (String × PartialEntry)) (p : String) :
    Option PartialEntry :=
  (ros.find? fun e => e.fst == p).map Prod.snd

mutual

/-- Recursive flattening of the route tree (`extractRoutesFromTree`).
The `!route` null check cannot arise for the inductive tree type. -/
def extractRoutesFromTree (opts : ResolvedOptions) :
    TanStackRoute → String → List RouteInfo
  | .node p children, parentPath =>
    let routePath := p.getD ""
    let fullPath := buildFullPath parentPath routePath
    let self :=
      if fullPath != "" && !isDynamicRoute routePath
          && !isExcludedRoute opts fullPath then
        [{ path := fullPath
           includedInSitemap := some true
           sitemapOptions :=
             some ((lookupRouteOptions opts.routeOptions fullPath).getD
               emptyPartial) }]
      else []
    self ++ extractRoutesList opts children fullPath

/-- The `for (const childRoute of route.children)` loop of
`extractRoutesFromTree`. -/
def extractRoutesList (opts : ResolvedOptions) :
    List TanStackRoute → String → List RouteInfo
  | [], _ => []
  | c :: cs, parentPath =>
    extractRoutesFromTree opts c parentPath ++ extractRoutesList opts cs parentPath

end

/-- `Array.prototype.filter` with the element index, as used by the
deduplication in `generateSitemapEntries`. -/
def fwGo (p : Nat → RouteInfo → Bool) : Nat → List RouteInfo → List RouteInfo
  | _, [] => []
  | i, x :: xs => if p i x then x :: fwGo p (i + 1) xs else fwGo p (i + 1) xs

/-- The deduplication callback: keep `route` at `index` when it is included
and `self.findIndex((r) => r.path === route.path) === index`. -/
def uniqP (routes : List RouteInfo) (i : Nat) (r : RouteInfo) : Bool :=
  (r.includedInSitemap == some true)
    && (routes.findIdx (fun r2 => r2.path == r.path) == i)

/-- The `uniqueRoutes` filter of `generateSitemapEntries`. -/
def uniqueRoutes (routes : List RouteInfo) : List RouteInfo :=
  fwGo (uniqP routes) 0 routes

/-- URL construction (`buildFullUrl`): strip one trailing slash from the
base URL, optionally append a trailing slash to the path. -/
def buildFullUrl (opts : ResolvedOptions) (path : String) : String :=
  let baseUrl :=
    if jsEndsWith opts.baseUrl "/" then String.mk opts.baseUrl.data.dropLast
    else opts.baseUrl
  let fullPath :=
    if opts.trailingSlash && !jsEndsWith path "/" && path != "/" then path ++ "/"
    else path
  baseUrl ++ fullPath

/-- Static-route entry resolution (`createSitemapEntry`); resolution uses
JS `||`, so falsy override values fall through to the defaults. -/
def createSitemapEntry (opts : ResolvedOptions) (route : RouteInfo) :
    SitemapEntry :=
  { url := buildFullUrl opts route.path
    lastmod := some (jsOrStr (route.sitemapOptions.bind fun o => o.lastmod)
      opts.lastmod)
    changefreq := some (jsOrStr (route.sitemapOptions.bind fun o => o.changefreq)
      opts.defaultChangefreq)
    priority := some (jsOrNum (route.sitemapOptions.bind fun o => o.priority)
      opts.defaultPriority) }

/-- Manual-route entry resolution (`createManualSitemapEntry`).  The local
`lastmod` is set only under the truthiness guard `if (route.lastMod)`;
`priority` uses an explicit `!== undefined` test, not `||`. -/
def createManualSitemapEntry (opts : ResolvedOptions)
    (route : ManualSitemapEntry) : SitemapEntry :=
  let url := buildFullUrl opts route.location
  let lastmod : Option String :=
    match route.lastMod with
    | some (.date iso) => some iso
    | some (.str s) => if s = "" then none else some s
    | none => none
  { url := url
    lastmod := some (jsOrStr lastmod opts.lastmod)
    changefreq := some (jsOrStr route.changeFrequency opts.defaultChangefreq)
    priority := some (route.priority.getD opts.defaultPriority) }

/-- The `console.warn` message of the `catch` branch, with the error
appended the way `console.warn` joins its arguments. -/
def warnMessage (message : String) : String :=
  "Warning: Failed to generate manual routes: " ++ message

/-- Evaluation of the manual-routes provider with the surrounding
`try/catch` (`generateManualRoutes`); the second component is the
`console.warn` log of the run. -/
def generateManualRoutes (opts : ResolvedOptions) :
    List SitemapEntry × List String :=
  match opts.manualRoutes with
  | none => ([], [])
  | some (.failure message) => ([], [warnMessage message])
  | some (.success manualRoutes) =>
    ((manualRoutes.filter fun route => !isExcludedRoute opts route.location).map
      (createManualSitemapEntry opts), [])

/-- Entry generation (`generateSitemapEntries`): flatten, deduplicate,
resolve, then append the manual entries. -/
def generateSitemapEntries (opts : ResolvedOptions)
    (routeTree : TanStackRoute) : List SitemapEntry :=
  let routes := extractRoutesFromTree opts routeTree ""
  let uniques := uniqueRoutes routes
  let staticEntries := uniques.map (createSitemapEntry opts)
  staticEntries ++ (generateManualRoutes opts).fst

/-- The five sequential global replacements of `escapeXml`, ampersand
first. -/
def escapeList (l : List Char) : List Char :=
  replaceChar aposChar "&apos;".data
    (replaceChar quoteChar "&quot;".data
      (replaceChar '>' "&gt;".data
        (replaceChar '<' "&lt;".data
          (replaceChar '&' "&amp;".data l))))

/-- String wrapper around `escapeList` (`escapeXml`). -/
def escapeXml (s : String) : String := String.mk (escapeList s.data)

/-- The fixed XML declaration line. -/
def xmlDecl : String := "<?xml version=\"1.0\" encoding=\"UTF-8\"?>"

/-- The fixed sitemap-namespace root element opening. -/
def urlsetOpen : String :=
  "<urlset xmlns=\"http://www.sitemaps.org/schemas/sitemap/0.9\">"

/-- XML rendering (`entriesToXml`), written as the source's accumulating
loop over the entries. -/
def entriesToXml (opts : ResolvedOptions) (entries : List SitemapEntry) :
    String :=
  let indent := if opts.prettyPrint then "  " else ""
  let newline := if opts.prettyPrint then "\n" else ""
  let xml := xmlDecl ++ newline
  let xml := xml ++ urlsetOpen ++ newline
  let xml := entries.foldl
    (fun xml entry =>
      let xml := xml ++ indent ++ "<url>" ++ newline
      let xml := xml ++ indent ++ indent ++ "<loc>" ++ escapeXml entry.url
        ++ "</loc>" ++ newline
      let xml := xml ++
        match entry.lastmod with
        | some lm =>
          if lm = "" then ""
          else indent ++ indent ++ "<lastmod>" ++ lm ++ "</lastmod>" ++ newline
        | none => ""
      let xml := xml ++
        match entry.changefreq with
        | some cf =>
          if cf = "" then ""
          else indent ++ indent ++ "<changefreq>" ++ cf ++ "</changefreq>"
            ++ newline
        | none => ""
      let xml := xml ++
        match entry.priority with
        | some p =>
          indent ++ indent ++ "<priority>" ++ toFixed1 p ++ "</priority>"
            ++ newline
        | none => ""
      xml ++ indent ++ "</url>" ++ newline)
    xml
  xml ++ "</urlset>"

/-- The XML entry point (`generateXmlSitemap`). -/
def generateXmlSitemap (opts : ResolvedOptions) (routeTree : TanStackRoute) :
    String :=
  entriesToXml opts (generateSitemapEntries opts routeTree)

/-! Specification-side definitions, used to state the claims the
implementation definitions above are compared with. -/

/-- Specification-side deduplication: iterate in order and keep a
descriptor only if its path was not seen at an earlier position. -/
def dedupSeen : List String → List RouteInfo → List RouteInfo
  | _, [] => []
  | seen, r :: rs =>
    if seen.contains r.path then dedupSeen seen rs
    else r :: dedupSeen (r.path :: seen) rs

/-- First-occurrence-wins deduplication by path. -/
def dedupFirst (l : List RouteInfo) : List RouteInfo := dedupSeen [] l

/-- Specification-side description of one `<url>` block: child elements in
the fixed order `loc`, `lastmod`, `changefreq`, `priority`, the latter
three only when present and (for the strings) non-empty. -/
def urlBlock (opts : ResolvedOptions) (entry : SitemapEntry) : String :=
  let indent := if opts.prettyPrint then "  " else ""
  let newline := if opts.prettyPrint then "\n" else ""
  (indent ++ "<url>" ++ newline)
  ++ (indent ++ indent ++ "<loc>" ++ escapeXml entry.url ++ "</loc>" ++ newline)
  ++ (match entry.lastmod with
      | some lm =>
        if lm = "" then ""
        else indent ++ indent ++ "<lastmod>" ++ lm ++ "</lastmod>" ++ newline
      | none => "")
  ++ (match entry.changefreq with
      | some cf =>
        if cf = "" then ""
        else indent ++ indent ++ "<changefreq>" ++ cf ++ "</changefreq>"
          ++ newline
      | none => "")
  ++ (match entry.priority with
      | some p =>
        indent ++ indent ++ "<priority>" ++ toFixed1 p ++ "</priority>"
          ++ newline
      | none => "")
  ++ (indent ++ "</url>" ++ newline)

/-- The document part preceding the `<url>` blocks: XML declaration and
the sitemap-namespace root opening. -/
def xmlHeader (opts : ResolvedOptions) : String :=
  let newline := if opts.prettyPrint then "\n" else ""
  xmlDecl ++ newline ++ urlsetOpen ++ newline

/-- Concatenation of a list of strings. -/
def joinStr : List String → String
  | [] => ""
  | s :: l => s ++ joinStr l

/-- Character-wise XML escaping map: the intended joint effect of the five
ordered substitutions. -/
def xmlEscapeChar (c : Char) : List Char :=
  if c = '&' then "&amp;".data
  else if c = '<' then "&lt;".data
  else if c = '>' then "&gt;".data
  else if c = quoteChar then "&quot;".data
  else if c = aposChar then "&apos;".data
  else [c]

mutual

/-- Hypothesis of the amended no-dynamic-segment claim: no node of the
tree has a raw path that both starts with a slash and contains a
dynamic-parameter character. -/
def noAbsDyn : TanStackRoute → Bool
  | .node p children =>
    !(jsStartsWith (p.getD "") "/" && isDynamicRoute (p.getD ""))
      && noAbsDynList children

/-- List form of `noAbsDyn`. -/
def noAbsDynList : List TanStackRoute → Bool
  | [] => true
  | c :: cs => noAbsDyn c && noAbsDynList cs

end

/-! Concrete fixtures used by the scenario claims, their witnesses and the
counterexamples. -/

/-- One half in reduced constructor form, kernel-reducible for `decide`. -/
def half : Rat := ⟨1, 2, by decide, by decide⟩

/-- Resolved options as the constructor produces them for the input that
sets only `baseUrl`, with a fixed construction time; `defaultPriority` is
the constructor default `0.5`. -/
def baseOpts : ResolvedOptions :=
  { baseUrl := "https://example.com", defaultChangefreq := "weekly",
    defaultPriority := half, excludeRoutes := [], routeOptions := [],
    trailingSlash := false, lastmod := "2024-01-01T00:00:00.000Z",
    prettyPrint := true, manualRoutes := none }

/-- Exclusion fixture: `baseOpts` with the `/admin/*` pattern. -/
def adminOpts : ResolvedOptions := { baseOpts with excludeRoutes := ["/admin/*"] }

/-- Constructor input for the round-trip scenario: `baseUrl` only. -/
def roundTripInput : SitemapOptions :=
  ⟨"https://example.com", none, none, none, none, none, none, none, none⟩

/-- Resolved options for the round-trip scenario, parametric in the
construction-time timestamp. -/
def roundTripOpts (now : String) : ResolvedOptions :=
  { baseUrl := "https://example.com", defaultChangefreq := "weekly",
    defaultPriority := 1 / 2, excludeRoutes := [], routeOptions := [],
    trailingSlash := false, lastmod := now, prettyPrint := true,
    manualRoutes := none }

/-- The round-trip scenario tree. -/
def roundTripTree : TanStackRoute :=
  .node (some "/") [.node (some "home") [], .node (some "about") []]

/-- Tree whose root has an absolute dynamic path with a static child. -/
def absDynTree : TanStackRoute :=
  .node (some "/post/$id") [.node (some "edit") []]

/-- Options whose `routeOptions` override `/about` with priority `0`. -/
def zeroOverrideOpts : ResolvedOptions :=
  { baseOpts with
    routeOptions := [("/about", ⟨none, none, none, some 0⟩)] }

/-- Tree with a root and an `about` child, for the override scenarios. -/
def aboutTree : TanStackRoute :=
  .node (some "/") [.node (some "about") []]

/-- Options with a failing manual-routes provider. -/
def failingManualOpts : ResolvedOptions :=
  { baseOpts with manualRoutes := some (.failure "boom") }

/-- Constructor input with an explicitly fixed `lastmod`. -/
def fixedLmInput : SitemapOptions :=
  ⟨"https://example.com", none, none, none, none, none,
    some "2023-05-05T00:00:00.000Z", none, none⟩

/-- Resolved options for `fixedLmInput`, independent of construction time. -/
def fixedLmOpts : ResolvedOptions :=
  { baseUrl := "https://example.com", defaultChangefreq := "weekly",
    defaultPriority := 1 / 2, excludeRoutes := [], routeOptions := [],
    trailingSlash := false, lastmod := "2023-05-05T00:00:00.000Z",
    prettyPrint := true, manualRoutes := none }

/-! Helper lemmas. -/

/-- Collapsing changes nothing on a slash-free character list. -/
theorem collapseList_no_slash :
    ∀ l : List Char, (∀ x ∈ l, x ≠ '/') → collapseList l = l
  | [], _ => rfl
  | [_], _ => rfl
  | c₁ :: c₂ :: rest, h => by
    have h₁ : c₁ ≠ '/' := h c₁ (by simp)
    have ih := collapseList_no_slash (c₂ :: rest) (fun x hx => h x (by simp [hx]))
    simp [collapseList, h₁, ih]

/-- Collapsing a slash followed by a slash-free list changes nothing. -/
theorem collapseList_cons_slash (l : List Char) (h : ∀ x ∈ l, x ≠ '/') :
    collapseList ('/' :: l) = '/' :: l := by
  cases l with
  | nil => rfl
  | cons c rest =>
    have hc : c ≠ '/' := h c (by simp)
    have ih := collapseList_no_slash (c :: rest) h
    simp [collapseList, hc, ih]

/-- A string starting with a slash is non-empty. -/
theorem slash_append_ne_empty (s : String) : ("/" ++ s) ≠ "" := by
  intro h
  have hd := congrArg String.data h
  rw [String.data_append] at hd
  simp at hd

/-- Membership form of the `BEq`-based `List.contains`. -/
theorem contains_eq_decide_mem {α} [BEq α] [LawfulBEq α] (l : List α) (a : α) :
    l.contains a = decide (a ∈ l) := by
  induction l with
  | nil => simp
  | cons b bs ih =>
    rw [List.contains_cons, ih]
    by_cases h : a = b <;> simp [h]

/-- `findIdx` skips a prefix on which the test fails everywhere. -/
theorem findIdx_append_of_not_mem {α} (q : α → Bool) :
    ∀ (pre : List α), (∀ x ∈ pre, q x = false) → ∀ l : List α,
      (pre ++ l).findIdx q = pre.length + l.findIdx q
  | [], _, l => by simp
  | x :: pre', h, l => by
    have hx : q x = false := h x (by simp)
    have ih := findIdx_append_of_not_mem q pre'
      (fun y hy => h y (by simp [hy])) l
    simp [List.findIdx_cons, hx, ih]
    omega

/-- `findIdx` lands inside a prefix that satisfies the test somewhere. -/
theorem findIdx_append_lt {α} (q : α → Bool) :
    ∀ (pre : List α), (∃ x ∈ pre, q x = true) → ∀ l : List α,
      (pre ++ l).findIdx q < pre.length
  | [], h, _ => by simp at h
  | x :: pre', h, l => by
    by_cases hx : q x = true
    · simp [List.findIdx_cons, hx]
    · have hx' : q x = false := by revert hx; cases q x <;> simp
      obtain ⟨y, hy, hqy⟩ := h
      have hy' : y ∈ pre' := by
        rcases List.mem_cons.1 hy with rfl | hm
        · rw [hqy] at hx'; cases hx'
        · exact hm
      have ih := findIdx_append_lt q pre' ⟨y, hy', hqy⟩ l
      simp [List.findIdx_cons, hx']
      omega

/-- `dedupSeen` depends on the seen set only through membership. -/
theorem dedupSeen_congr : ∀ (l : List RouteInfo) (s₁ s₂ : List String),
    (∀ t, s₁.contains t = s₂.contains t) → dedupSeen s₁ l = dedupSeen s₂ l
  | [], _, _, _ => rfl
  | r :: rs, s₁, s₂, h => by
    have hr := h r.path
    by_cases hc : s₁.contains r.path = true
    · have hc₂ : s₂.contains r.path = true := by rw [← hr]; exact hc
      simp only [dedupSeen, hc, hc₂, if_true]
      exact dedupSeen_congr rs s₁ s₂ h
    · have hc₁ : s₁.contains r.path = false := by
        revert hc; cases s₁.contains r.path <;> simp
      have hc₂ : s₂.contains r.path = false := by rw [← hr]; exact hc₁
      simp only [dedupSeen, hc₁, hc₂, Bool.false_eq_true, if_false]
      congr 1
      refine dedupSeen_congr rs _ _ fun t => ?_
      rw [List.contains_cons, List.contains_cons, h t]

/-- The deduplicated list is a sublist of the input: order is preserved
and nothing new appears. -/
theorem dedupSeen_sublist :
    ∀ (l : List RouteInfo) (seen : List String), (dedupSeen seen l).Sublist l
  | [], _ => .slnil
  | r :: rs, seen => by
    by_cases hc : seen.contains r.path = true
    · simp only [dedupSeen, hc, if_true]
      exact (dedupSeen_sublist rs seen).cons r
    · have hc' : seen.contains r.path = false := by
        revert hc; cases seen.contains r.path <;> simp
      simp only [dedupSeen, hc', Bool.false_eq_true, if_false]
      exact (dedupSeen_sublist rs _).cons₂ r

/-- Every kept descriptor's path was unseen at its position. -/
theorem dedupSeen_not_seen :
    ∀ (l : List RouteInfo) (seen : List String) (x : RouteInfo),
      x ∈ dedupSeen seen l → seen.contains x.path = false
  | [], _, _, h => by simp [dedupSeen] at h
  | r :: rs, seen, x, h => by
    by_cases hc : seen.contains r.path = true
    · rw [dedupSeen, if_pos hc] at h
      exact dedupSeen_not_seen rs seen x h
    · have hc' : seen.contains r.path = false := by
        revert hc; cases seen.contains r.path <;> simp
      rw [dedupSeen, if_neg hc] at h
      rcases List.mem_cons.1 h with rfl | hm
      · exact hc'
      · have := dedupSeen_not_seen rs _ x hm
        rw [List.contains_cons] at this
        revert this
        cases hsc : seen.contains x.path <;> simp

/-- The paths of the deduplicated list are pairwise distinct. -/
theorem dedupSeen_paths_nodup :
    ∀ (l : List RouteInfo) (seen : List String),
      ((dedupSeen seen l).map RouteInfo.path).Nodup
  | [], _ => by simp [dedupSeen]
  | r :: rs, seen => by
    by_cases hc : seen.contains r.path = true
    · simp only [dedupSeen, hc, if_true]
      exact dedupSeen_paths_nodup rs seen
    · have hc' : seen.contains r.path = false := by
        revert hc; cases seen.contains r.path <;> simp

      simp only [dedupSeen, hc', Bool.false_eq_true, if_false, List.map_cons,
        List.nodup_cons]
      refine ⟨?_, dedupSeen_paths_nodup rs (r.path :: seen)⟩
      intro hmem
      obtain ⟨y, hy, hyp⟩ := List.mem_map.1 hmem
      have := dedupSeen_not_seen rs (r.path :: seen) y hy
      rw [List.contains_cons, hyp] at this
      simp at this

/-- Every input path survives deduplication (witnessed by its first
occurrence). -/
theorem dedupSeen_mem_path :
    ∀ (l : List RouteInfo) (seen : List String) (x : RouteInfo),
      x ∈ l → seen.contains x.path = false →
      ∃ y ∈ dedupSeen seen l, y.path = x.path
  | [], _, _, hx, _ => by cases hx
  | r :: rs, seen, x, hx, hs => by
    by_cases hc : seen.contains r.path = true
    · rcases List.mem_cons.1 hx with rfl | hm
      · rw [hc] at hs; cases hs
      · obtain ⟨y, hy, hyp⟩ := dedupSeen_mem_path rs seen x hm hs
        exact ⟨y, by rw [dedupSeen, if_pos hc]; exact hy, hyp⟩
    · have hc' : seen.contains r.path = false := by
        revert hc; cases seen.contains r.path <;> simp
      rcases List.mem_cons.1 hx with rfl | hm
      · exact ⟨x, by rw [dedupSeen, if_neg hc]; simp, rfl⟩
      · by_cases hpx : x.path = r.path
        · refine ⟨r, by rw [dedupSeen, if_neg hc]; simp, hpx.symm⟩
        · have hs' : (r.path :: seen).contains x.path = false := by
            rw [List.contains_cons, hs]
            simp [hpx]
          obtain ⟨y, hy, hyp⟩ := dedupSeen_mem_path rs (r.path :: seen) x hm hs'
          exact ⟨y, by rw [dedupSeen, if_neg hc]; simp [hy], hyp⟩

/-- The JS index-based duplicate filter computes first-occurrence-wins
deduplication, provided every element is marked included. -/
theorem fwGo_eq_dedupSeen (l : List RouteInfo)
    (hall : ∀ r ∈ l, r.includedInSitemap = some true) :
    ∀ (rest pre : List RouteInfo), l = pre ++ rest →
      fwGo (uniqP l) pre.length rest = dedupSeen (pre.map RouteInfo.path) rest := by
  intro rest
  induction rest with
  | nil => intro pre _; rfl
  | cons r rs ih =>
    intro pre hl
    have hrl : r ∈ l := by rw [hl]; simp
    have hincl := hall r hrl
    have hlen : (pre ++ [r]).length = pre.length + 1 := by simp
    have hl' : l = (pre ++ [r]) ++ rs := by rw [hl, List.append_assoc]; rfl
    have htail := ih (pre ++ [r]) hl'
    rw [hlen] at htail
    by_cases hmem : r.path ∈ pre.map RouteInfo.path
    · have hlt : (l.findIdx fun r2 => r2.path == r.path) < pre.length := by
        rw [hl]
        apply findIdx_append_lt
        obtain ⟨y, hy, hyp⟩ := List.mem_map.1 hmem
        exact ⟨y, hy, by simp [hyp]⟩
      have hp : uniqP l pre.length r = false := by
        simp [uniqP, Nat.ne_of_lt hlt]
      rw [fwGo, if_neg (by simp [hp])]
      rw [dedupSeen, if_pos (by rw [contains_eq_decide_mem]; simpa using hmem)]
      rw [htail]
      refine dedupSeen_congr rs _ _ fun t => ?_
      rw [contains_eq_decide_mem, contains_eq_decide_mem]
      apply decide_eq_decide.mpr
      simp only [List.map_append, List.map_cons, List.map_nil, List.mem_append,
        List.mem_cons, List.not_mem_nil, or_false]
      constructor
      · rintro (h | h)
        · exact h
        · exact h ▸ hmem
      · exact Or.inl
    · have hfind : (l.findIdx fun r2 => r2.path == r.path) = pre.length := by
        rw [hl, findIdx_append_of_not_mem]
        · rw [List.findIdx_cons]
          simp
        · intro x hxp
          have hne : x.path ≠ r.path := by
            intro he
            exact hmem (List.mem_map.2 ⟨x, hxp, he⟩)
          simp [hne]
      have hp : uniqP l pre.length r = true := by
        simp [uniqP, hincl, hfind]
      rw [fwGo, if_pos (by simp [hp])]
      rw [dedupSeen, if_neg (by rw [contains_eq_decide_mem]; simpa using hmem)]
      rw [htail]
      congr 1
      refine dedupSeen_congr rs _ _ fun t => ?_
      rw [contains_eq_decide_mem, contains_eq_decide_mem]
      apply decide_eq_decide.mpr
      simp only [List.map_append, List.map_cons, List.map_nil, List.mem_append,
        List.mem_cons, List.not_mem_nil, or_false]
      exact or_comm

/-- The source's `uniqueRoutes` filter equals specification-side
first-occurrence deduplication on included-only inputs. -/
theorem uniqueRoutes_eq_dedupFirst (l : List RouteInfo)
    (hall : ∀ r ∈ l, r.includedInSitemap = some true) :
    uniqueRoutes l = dedupFirst l := by
  have h := fwGo_eq_dedupSeen l hall l [] rfl
  simpa [uniqueRoutes, dedupFirst] using h

mutual

/-- Every descriptor the flattener emits is marked included. -/
theorem extract_included (opts : ResolvedOptions) :
    ∀ (r : TanStackRoute) (pp : String) (ri : RouteInfo),
      ri ∈ extractRoutesFromTree opts r pp → ri.includedInSitemap = some true
  | .node p children, pp, ri, hri => by
    simp only [extractRoutesFromTree, List.mem_append] at hri
    rcases hri with h | h
    · split at h
      · rcases List.mem_singleton.1 h with rfl
        rfl
      · cases h
    · exact extractList_included opts children (buildFullPath pp (p.getD "")) ri h

/-- List form of `extract_included`. -/
theorem extractList_included (opts : ResolvedOptions) :
    ∀ (cs : List TanStackRoute) (pp : String) (ri : RouteInfo),
      ri ∈ extractRoutesList opts cs pp → ri.includedInSitemap = some true
  | [], _, _, hri => by cases hri
  | c :: cs, pp, ri, hri => by
    simp only [extractRoutesList, List.mem_append] at hri
    rcases hri with h | h
    · exact extract_included opts c pp ri h
    · exact extractList_included opts cs pp ri h

end

/-- One half equals the constructor-default priority value `0.5`. -/
theorem half_eq : half = 1 / 2 :=
  Rat.ext (by norm_num [half]) (by norm_num [half])

/-- A fold that appends a block per element is the initial string followed
by the concatenation of the blocks. -/
theorem foldl_append_hom (f : String → SitemapEntry → String)
    (g : SitemapEntry → String) (hf : ∀ a e, f a e = a ++ g e) :
    ∀ (entries : List SitemapEntry) (init : String),
      entries.foldl f init = init ++ joinStr (entries.map g)
  | [], init => by simp [joinStr, String.append_empty]
  | e :: es, init => by
    rw [List.foldl_cons, hf, foldl_append_hom f g hf es]
    simp [joinStr, String.append_assoc]

/-- Single-character global replacement distributes over concatenation. -/
theorem replaceChar_append (c : Char) (rep : List Char) :
    ∀ xs ys : List Char,
      replaceChar c rep (xs ++ ys) = replaceChar c rep xs ++ replaceChar c rep ys
  | [], _ => rfl
  | x :: xs, ys => by
    simp only [List.cons_append, replaceChar]
    by_cases h : x = c <;>
      simp [h, replaceChar_append c rep xs ys, List.append_assoc]

/-- The composed escaping distributes over concatenation. -/
theorem escapeList_append (xs ys : List Char) :
    escapeList (xs ++ ys) = escapeList xs ++ escapeList ys := by
  simp only [escapeList, replaceChar_append]

/-- On a single character the five ordered substitutions act as the
character-wise escaping map: the ampersand pass runs first, and no later
pass touches the output of an earlier one. -/
theorem escapeList_singleton (c : Char) : escapeList [c] = xmlEscapeChar c := by
  by_cases h1 : c = '&'
  · subst h1; decide
  by_cases h2 : c = '<'
  · subst h2; decide
  by_cases h3 : c = '>'
  · subst h3; decide
  by_cases h4 : c = quoteChar
  · subst h4; decide
  by_cases h5 : c = aposChar
  · subst h5; decide
  simp [escapeList, replaceChar, xmlEscapeChar, h1, h2, h3, h4, h5]

/-- The sequential escaping equals the character-wise map on every
character list. -/
theorem escapeList_eq_flatten :
    ∀ l : List Char, escapeList l = (l.map xmlEscapeChar).flatten
  | [] => rfl
  | c :: l => by
    have h : c :: l = [c] ++ l := rfl
    rw [h, escapeList_append, escapeList_singleton, escapeList_eq_flatten l]
    simp

/-- Collapsing slashes introduces no new characters. -/
theorem mem_collapseList : ∀ (l : List Char) (x : Char), x ∈ collapseList l → x ∈ l
  | [], _, h => by cases h
  | [_], _, h => h
  | c₁ :: c₂ :: rest, x, h => by
    rw [collapseList] at h
    split at h
    · exact List.mem_cons_of_mem c₁ (mem_collapseList (c₂ :: rest) x h)
    · rcases List.mem_cons.1 h with rfl | hm
      · exact List.mem_cons_self _ _
      · exact List.mem_cons_of_mem c₁ (mem_collapseList (c₂ :: rest) x hm)

/-- Character-membership form of the dynamic-route test. -/
theorem isDynamicRoute_eq_false (s : String) :
    isDynamicRoute s = false
      ↔ ('$' ∉ s.data ∧ '[' ∉ s.data ∧ ']' ∉ s.data) := by
  simp [isDynamicRoute, contains_eq_decide_mem, and_assoc]

/-- A slash-collapsed string is dynamic only if the original was. -/
theorem isDynamicRoute_collapseSlashes (s : String)
    (h : isDynamicRoute s = false) :
    isDynamicRoute (collapseSlashes s) = false := by
  rw [isDynamicRoute_eq_false] at h ⊢
  have hd : (collapseSlashes s).data = collapseList s.data := rfl
  rw [hd]
  exact ⟨fun hm => h.1 (mem_collapseList _ _ hm),
    fun hm => h.2.1 (mem_collapseList _ _ hm),
    fun hm => h.2.2 (mem_collapseList _ _ hm)⟩

/-- Concatenation of non-dynamic strings is non-dynamic. -/
theorem isDynamicRoute_append (a b : String)
    (ha : isDynamicRoute a = false) (hb : isDynamicRoute b = false) :
    isDynamicRoute (a ++ b) = false := by
  rw [isDynamicRoute_eq_false] at ha hb ⊢
  rw [String.data_append]
  simp only [List.mem_append]
  exact ⟨fun hm => hm.elim ha.1 hb.1,
    fun hm => hm.elim ha.2.1 hb.2.1,
    fun hm => hm.elim ha.2.2 hb.2.2⟩

/-- The built path of a node is non-dynamic, provided the inherited parent
path is and the node's raw path is not an absolute dynamic path. -/
theorem buildFullPath_not_dynamic (pp rp : String)
    (hpp : isDynamicRoute pp = false)
    (habs : jsStartsWith rp "/" = true → isDynamicRoute rp = false) :
    isDynamicRoute (buildFullPath pp rp) = false := by
  rw [buildFullPath]
  split
  · exact habs ‹_›
  · split
    · decide
    · rename_i hs hdyn
      have hrp : isDynamicRoute rp = false := by
        revert hdyn; cases isDynamicRoute rp <;> simp
      split
      · split
        · decide
        · exact hpp
      · split
        · decide
        · apply isDynamicRoute_collapseSlashes
          split
          · exact isDynamicRoute_append "/" rp (by decide) hrp
          · exact isDynamicRoute_append (pp ++ "/") rp
              (isDynamicRoute_append pp "/" hpp (by decide)) hrp

mutual

/-- No emitted descriptor of a tree without absolute dynamic paths has a
dynamic character in its path, given a clean inherited parent path. -/
theorem extract_no_dynamic (opts : ResolvedOptions) :
    ∀ (r : TanStackRoute) (pp : String), isDynamicRoute pp = false →
      noAbsDyn r = true →
      ∀ ri ∈ extractRoutesFromTree opts r pp, isDynamicRoute ri.path = false
  | .node p children, pp, hpp, hr, ri, hri => by
    rw [noAbsDyn] at hr
    rw [Bool.and_eq_true, Bool.not_eq_true'] at hr
    have habs : jsStartsWith (p.getD "") "/" = true →
        isDynamicRoute (p.getD "") = false := by
      intro hs
      rcases Bool.and_eq_false_iff.1 hr.1 with h | h
      · rw [hs] at h; cases h
      · exact h
    have hfp : isDynamicRoute (buildFullPath pp (p.getD "")) = false :=
      buildFullPath_not_dynamic pp (p.getD "") hpp habs
    simp only [extractRoutesFromTree, List.mem_append] at hri
    rcases hri with h | h
    · split at h
      · rcases List.mem_singleton.1 h with rfl
        exact hfp
      · cases h
    · exact extractList_no_dynamic opts children
        (buildFullPath pp (p.getD "")) hfp hr.2 ri h

/-- List form of `extract_no_dynamic`. -/
theorem extractList_no_dynamic (opts : ResolvedOptions) :
    ∀ (cs : List TanStackRoute) (pp : String), isDynamicRoute pp = false →
      noAbsDynList cs = true →
      ∀ ri ∈ extractRoutesList opts cs pp, isDynamicRoute ri.path = false
  | [], _, _, _, _, hri => by cases hri
  | c :: cs, pp, hpp, hcs, ri, hri => by
    rw [noAbsDynList, Bool.and_eq_true] at hcs
    simp only [extractRoutesList, List.mem_append] at hri
    rcases hri with h | h
    · exact extract_no_dynamic opts c pp hpp hcs.1 ri h
    · exact extractList_no_dynamic opts cs pp hpp hcs.2 ri h

end

/-! Claim theorems. -/

/-- C3: for every pattern ending in the two-character suffix `/*`, a path
equal to the pattern with the suffix stripped, or starting with that
stripped prefix followed by `/`, matches; concretely `/admin/*` excludes
`/admin` and `/admin/x` but not `/administrator`. -/
theorem excludeGlob_spec (pattern path : String)
    (hp : jsEndsWith pattern "/*" = true)
    (h : path = sliceDropTwo pattern
      ∨ jsStartsWith path (sliceDropTwo pattern ++ "/") = true) :
    matchesExcludePattern pattern path = true
    ∧ isExcludedRoute adminOpts "/admin" = true
    ∧ isExcludedRoute adminOpts "/admin/x" = true
    ∧ isExcludedRoute adminOpts "/administrator" = false := by
  refine ⟨?_, by decide, by decide, ?_⟩
  · have hmem : Char.ofNat 42 ∈ pattern.data := by
      have hsuf := (List.isSuffixOf_iff_suffix).1 hp
      obtain ⟨t, ht⟩ := hsuf
      rw [← ht]
      simp
    have hstar : pattern.data.contains '*' = true := by
      exact List.contains_iff_exists_mem_beq.2 ⟨Char.ofNat 42, hmem, by decide⟩
    simp only [matchesExcludePattern, hstar, if_true, hp]
    rcases h with h | h
    · simp [h]
    · simp [h]
  · have h1 : compilePattern ("/admin/*" : String).data
        = [.lit '/', .lit 'a', .lit 'd', .lit 'm', .lit 'i', .lit 'n',
           .lit '/', GlobToken.anyStar] := by decide
    have h2 : ("/administrator" : String).data
        = ['/', 'a', 'd', 'm', 'i', 'n', 'i', 's', 't', 'r', 'a', 't',
           'o', 'r'] := by decide
    have h3 : matchesExcludePattern "/admin/*" "/administrator" = false := by
      simp only [matchesExcludePattern, h1, h2]
      norm_num
      constructor
      · decide
      · simp +decide [rmatch, rstar]
    simp [isExcludedRoute, adminOpts, baseOpts, h3]

/-- C3 witness: the general part of `excludeGlob_spec` instantiated at the
pattern `/admin/*` and the path `/admin/sub`. -/
theorem excludeGlob_spec_witness :
    jsEndsWith "/admin/*" "/*" = true
    ∧ (("/admin/sub" : String) = sliceDropTwo "/admin/*"
      ∨ jsStartsWith "/admin/sub" (sliceDropTwo "/admin/*" ++ "/") = true)
    ∧ matchesExcludePattern "/admin/*" "/admin/sub" = true :=
  ⟨by decide, Or.inr (by decide),
    (excludeGlob_spec "/admin/*" "/admin/sub" (by decide)
      (Or.inr (by decide))).1⟩

/-- C4: the round-trip scenario.  For any construction time, the
constructor accepts the baseUrl-only input, and the tree with root `/` and
children `home`, `about` yields exactly the three expected URLs in order. -/
theorem roundTrip_spec (now : String) :
    mkGenerator roundTripInput now = .ok (roundTripOpts now)
    ∧ (generateSitemapEntries (roundTripOpts now) roundTripTree).map
        SitemapEntry.url
      = ["https://example.com/", "https://example.com/home",
         "https://example.com/about"] :=
  ⟨rfl, rfl⟩

/-- C6: when the manual-routes provider fails, a single warning is logged,
the manual set is empty, and entry generation still returns exactly the
static entries. -/
theorem manualFailure_recovery (opts : ResolvedOptions) (tree : TanStackRoute)
    (message : String) (h : opts.manualRoutes = some (.failure message)) :
    generateManualRoutes opts = ([], [warnMessage message])
    ∧ generateSitemapEntries opts tree
      = (uniqueRoutes (extractRoutesFromTree opts tree "")).map
          (createSitemapEntry opts) := by
  constructor
  · simp [generateManualRoutes, h]
  · simp [generateSitemapEntries, generateManualRoutes, h]

/-- C6 witness: the recovery theorem applied to a provider failing with
message `boom` on the round-trip tree. -/
theorem manualFailure_recovery_witness :
    failingManualOpts.manualRoutes = some (.failure "boom")
    ∧ (generateManualRoutes failingManualOpts
        = ([], [warnMessage "boom"])
      ∧ generateSitemapEntries failingManualOpts roundTripTree
        = (uniqueRoutes
            (extractRoutesFromTree failingManualOpts roundTripTree "")).map
            (createSitemapEntry failingManualOpts)) :=
  ⟨rfl, manualFailure_recovery failingManualOpts roundTripTree "boom" rfl⟩

/-- C5: duplicate paths collapse to their first depth-first occurrence
with stable order (the output descriptors are a sublist of the flattened
ones with pairwise-distinct paths and every input path represented), and
the final sequence is the deduplicated static entries followed by the
manual entries, which are computed independently of the static set. -/
theorem dedupAndOrdering_spec (opts : ResolvedOptions) (tree : TanStackRoute) :
    generateSitemapEntries opts tree
      = (dedupFirst (extractRoutesFromTree opts tree "")).map
          (createSitemapEntry opts)
        ++ (generateManualRoutes opts).fst
    ∧ ((dedupFirst (extractRoutesFromTree opts tree "")).map
        RouteInfo.path).Nodup
    ∧ (dedupFirst (extractRoutesFromTree opts tree "")).Sublist
        (extractRoutesFromTree opts tree "")
    ∧ ∀ r ∈ extractRoutesFromTree opts tree "",
        ∃ y ∈ dedupFirst (extractRoutesFromTree opts tree ""), y.path = r.path := by
  have hall : ∀ r ∈ extractRoutesFromTree opts tree "",
      r.includedInSitemap = some true :=
    fun r hr => extract_included opts tree "" r hr
  have hu := uniqueRoutes_eq_dedupFirst (extractRoutesFromTree opts tree "") hall
  refine ⟨?_, dedupSeen_paths_nodup _ _, dedupSeen_sublist _ _, ?_⟩
  · show List.map (createSitemapEntry opts)
        (uniqueRoutes (extractRoutesFromTree opts tree ""))
      ++ (generateManualRoutes opts).1 = _
    rw [hu]
  · intro r hr
    exact dedupSeen_mem_path _ [] r hr (by simp)

/-- C7: the rendered document is the fixed XML declaration and
sitemap-namespace root, one `<url>` block per entry in order — each block
`loc` first, then `lastmod`, `changefreq` and a one-decimal `priority`
when present — closed by `</urlset>`; and the `loc` escaping equals the
character-wise map obtained by applying the five substitutions in order
with the ampersand first. -/
theorem xmlRender_spec (opts : ResolvedOptions) (entries : List SitemapEntry) :
    entriesToXml opts entries
      = xmlHeader opts ++ joinStr (entries.map (urlBlock opts)) ++ "</urlset>"
    ∧ (∀ s : String, (escapeXml s).data = (s.data.map xmlEscapeChar).flatten)
    ∧ escapeXml "/path?query=test&other=value"
      = "/path?query=test&amp;other=value" := by
  refine ⟨?_, fun s => escapeList_eq_flatten s.data, by decide⟩
  simp only [entriesToXml, xmlHeader]
  rw [String.append_assoc]
  congr 1
  refine foldl_append_hom _ (urlBlock opts) ?_ entries _
  intro a e
  simp only [urlBlock]
  simp only [String.append_assoc]

/-- C8: with an explicitly fixed `lastmod` the resolved options do not
depend on the construction-time clock, so two generator instances built
from the same configuration produce byte-identical XML for the same tree.
Same-instance repeatability is immediate in this pure embedding because
the generator holds no mutable state. -/
theorem idempotent_output (options : SitemapOptions) (lm now₁ now₂ : String)
    (tree : TanStackRoute) (o₁ o₂ : ResolvedOptions)
    (hlm : options.lastmod = some lm)
    (h₁ : mkGenerator options now₁ = .ok o₁)
    (h₂ : mkGenerator options now₂ = .ok o₂) :
    generateXmlSitemap o₁ tree = generateXmlSitemap o₂ tree := by
  have ho : o₁ = o₂ := by
    unfold mkGenerator at h₁ h₂
    rw [hlm] at h₁ h₂
    simp only [Option.getD_some] at h₁ h₂
    split at h₁
    · simp at h₁
    · split at h₂
      · simp at h₂
      · cases h₁; cases h₂; rfl
  rw [ho]

/-- C9: a relative dynamic segment produces an empty `fullPath`, so a
child with a simple segment `s` is emitted at `/s` regardless of the
accumulated parent path, dropping the whole prefix. -/
theorem dynamicParentDropsPrefix (opts : ResolvedOptions)
    (parentPath d s : String)
    (hex : opts.excludeRoutes = [])
    (hd1 : jsStartsWith d "/" = false) (hd2 : isDynamicRoute d = true)
    (hs1 : jsStartsWith s "/" = false) (hs2 : isDynamicRoute s = false)
    (hs3 : s ≠ "") (hs4 : s ≠ "index") (hs5 : s ≠ "__root__")
    (hs6 : ∀ x ∈ s.data, x ≠ '/') :
    buildFullPath parentPath d = ""
    ∧ extractRoutesFromTree opts
        (.node (some d) [.node (some s) []]) parentPath
      = [{ path := "/" ++ s, includedInSitemap := some true,
           sitemapOptions :=
             some ((lookupRouteOptions opts.routeOptions ("/" ++ s)).getD
               emptyPartial) }] := by
  have hbp : buildFullPath parentPath d = "" := by
    simp [buildFullPath, hd1, hd2]
  refine ⟨hbp, ?_⟩
  have hslash : ("" : String) ++ "/" ++ s = "/" ++ s := by
    have : (("" : String) ++ "/") = "/" := rfl
    rw [this]
  have hcollapse : collapseSlashes ("/" ++ s) = "/" ++ s := by
    apply String.ext
    show (collapseList ("/" ++ s).data) = ("/" ++ s).data
    have hd : ("/" ++ s).data = '/' :: s.data := by
      rw [String.data_append]; rfl
    rw [hd, collapseList_cons_slash s.data hs6]
  have hchild : buildFullPath "" s = "/" ++ s := by
    rw [buildFullPath]
    rw [if_neg (by simp [hs1])]
    rw [if_neg (by simp [hs2])]
    rw [if_neg (by simp [hs3, hs4])]
    rw [if_neg hs5]
    rw [if_neg (by decide : ¬(("" : String) = "/"))]
    rw [hslash, hcollapse]
  have hne : ("/" ++ s) ≠ "" := slash_append_ne_empty s
  have hnex : isExcludedRoute opts ("/" ++ s) = false := by
    simp [isExcludedRoute, hex]
  simp only [extractRoutesFromTree, extractRoutesList, Option.getD_some, hbp,
    hchild]
  simp [hbp, hchild, hs2, hne, hnex]

/-- C9 witness: the drop-prefix theorem applied under the accumulated
parent path `/blog` with dynamic segment `post/$id` and child `edit`. -/
theorem dynamicParentDropsPrefix_witness :
    buildFullPath "/blog" "post/$id" = ""
    ∧ extractRoutesFromTree baseOpts
        (.node (some "post/$id") [.node (some "edit") []]) "/blog"
      = [{ path := "/edit", includedInSitemap := some true,
           sitemapOptions := some emptyPartial }] := by
  have h := dynamicParentDropsPrefix baseOpts "/blog" "post/$id" "edit"
    rfl (by decide) (by decide) (by decide) (by decide) (by decide)
    (by decide) (by decide) (by decide)
  exact ⟨h.1, by rw [h.2]; rfl⟩

/-- C1 (amended): provided no node's raw path both starts with `/` and
contains `$`, `[` or `]`, no emitted descriptor's path contains a dynamic
character, directly or inherited; without that proviso the claim fails,
see the counterexample. -/
theorem noDynamicSegment_amended (opts : ResolvedOptions)
    (tree : TanStackRoute) (h : noAbsDyn tree = true) :
    ∀ ri ∈ extractRoutesFromTree opts tree "",
      isDynamicRoute ri.path = false :=
  extract_no_dynamic opts tree "" (by decide) h

/-- C1 witness: the amended theorem applied to a tree containing a
relative dynamic segment. -/
theorem noDynamicSegment_amended_witness :
    noAbsDyn (.node (some "/")
      [.node (some "post/$id") [.node (some "edit") []]]) = true
    ∧ ∀ ri ∈ extractRoutesFromTree baseOpts
        (.node (some "/") [.node (some "post/$id") [.node (some "edit") []]])
        "",
        isDynamicRoute ri.path = false :=
  ⟨by decide,
    noDynamicSegment_amended baseOpts
      (.node (some "/") [.node (some "post/$id") [.node (some "edit") []]])
      (by decide)⟩

/-- C2 counterexample: with a `routeOptions` override of priority `0` for
`/about`, the emitted entry carries the default priority `0.5`, not the
override, because resolution uses JS `||` and `0` is falsy. -/
theorem routeOptionsZeroOverride_cex :
    lookupRouteOptions zeroOverrideOpts.routeOptions "/about"
      = some ⟨none, none, none, some 0⟩
    ∧ (generateSitemapEntries zeroOverrideOpts aboutTree).map
        SitemapEntry.priority
      = [some half, some half]
    ∧ half = 1 / 2
    ∧ half ≠ 0 :=
  ⟨by decide, by decide,
    Rat.ext (by norm_num [half]) (by norm_num [half]), by decide⟩

/-- C2 (amended): a `routeOptions` field overrides the configuration
default exactly when it is present and truthy; a present priority `0` or
empty-string `lastmod`/`changefreq` falls through to the default. -/
theorem routeOptionsTruthyOverride (opts : ResolvedOptions) (r : RouteInfo)
    (ro : PartialEntry) (h : r.sitemapOptions = some ro) :
    (∀ p : Rat, ro.priority = some p → p ≠ 0 →
      (createSitemapEntry opts r).priority = some p)
    ∧ ((ro.priority = none ∨ ro.priority = some 0) →
      (createSitemapEntry opts r).priority = some opts.defaultPriority)
    ∧ (∀ cf : String, ro.changefreq = some cf → cf ≠ "" →
      (createSitemapEntry opts r).changefreq = some cf)
    ∧ ((ro.changefreq = none ∨ ro.changefreq = some "") →
      (createSitemapEntry opts r).changefreq = some opts.defaultChangefreq)
    ∧ (∀ lm : String, ro.lastmod = some lm → lm ≠ "" →
      (createSitemapEntry opts r).lastmod = some lm)
    ∧ ((ro.lastmod = none ∨ ro.lastmod = some "") →
      (createSitemapEntry opts r).lastmod = some opts.lastmod) := by
  refine ⟨?_, ?_, ?_, ?_, ?_, ?_⟩
  · intro p hp hne
    simp [createSitemapEntry, h, hp, jsOrNum, hne]
  · rintro (hp | hp) <;> simp [createSitemapEntry, h, hp, jsOrNum]
  · intro cf hcf hne
    simp [createSitemapEntry, h, hcf, jsOrStr, hne]
  · rintro (hcf | hcf) <;> simp [createSitemapEntry, h, hcf, jsOrStr]
  · intro lm hlm hne
    simp [createSitemapEntry, h, hlm, jsOrStr, hne]
  · rintro (hlm | hlm) <;> simp [createSitemapEntry, h, hlm, jsOrStr]

/-- C2 witness: truthy overrides applied at a concrete route. -/
theorem routeOptionsTruthyOverride_witness :
    (createSitemapEntry baseOpts
      ⟨"/x", some true,
        some ⟨none, some "2020-01-01", some "daily", some (9 / 10)⟩⟩).priority
      = some (9 / 10)
    ∧ (createSitemapEntry baseOpts
      ⟨"/x", some true,
        some ⟨none, some "2020-01-01", some "daily", some (9 / 10)⟩⟩).changefreq
      = some "daily" := by
  have h := routeOptionsTruthyOverride baseOpts
    ⟨"/x", some true, some ⟨none, some "2020-01-01", some "daily", some (9 / 10)⟩⟩
    ⟨none, some "2020-01-01", some "daily", some (9 / 10)⟩ rfl
  exact ⟨h.1 (9 / 10) rfl (by norm_num), h.2.2.1 "daily" rfl (by decide)⟩

/-- C10: every emitted entry, static or manual, has `lastmod`,
`changefreq` and `priority` defined, because the constructor fills the
configuration defaults and both resolution paths fall back to them. -/
theorem entriesAlwaysFilled (options : SitemapOptions) (now : String)
    (opts : ResolvedOptions) (tree : TanStackRoute)
    (_h : mkGenerator options now = .ok opts) :
    ∀ e ∈ generateSitemapEntries opts tree,
      e.lastmod.isSome ∧ e.changefreq.isSome ∧ e.priority.isSome := by
  intro e he
  unfold generateSitemapEntries at he
  simp only [List.mem_append, List.mem_map] at he
  rcases he with ⟨r, _, rfl⟩ | he
  · simp [createSitemapEntry]
  · unfold generateManualRoutes at he
    rcases hm : opts.manualRoutes with _ | mo
    · rw [hm] at he; simp at he
    · rcases mo with routes | message
      · rw [hm] at he
        simp only [List.mem_map] at he
        obtain ⟨mr, _, rfl⟩ := he
        simp [createManualSitemapEntry]
      · rw [hm] at he; simp at he

/-- C10 witness: the filled-fields invariant applied to the round-trip
configuration and tree. -/
theorem entriesAlwaysFilled_witness :
    mkGenerator roundTripInput "2024-01-01T00:00:00.000Z"
      = .ok (roundTripOpts "2024-01-01T00:00:00.000Z")
    ∧ ∀ e ∈ generateSitemapEntries
        (roundTripOpts "2024-01-01T00:00:00.000Z") roundTripTree,
        e.lastmod.isSome ∧ e.changefreq.isSome ∧ e.priority.isSome :=
  ⟨rfl,
    entriesAlwaysFilled roundTripInput "2024-01-01T00:00:00.000Z"
      (roundTripOpts "2024-01-01T00:00:00.000Z") roundTripTree rfl⟩

/-- C1 counterexample: a node whose raw path starts with `/` and contains
`$` passes its path verbatim to its children, so the child `edit` is
emitted at `/post/$id/edit` — a dynamic segment appears in an emitted
entry via the inherited prefix. -/
theorem noDynamicSegment_cex :
    (extractRoutesFromTree baseOpts absDynTree "").map RouteInfo.path
      = ["/post/$id/edit"]
    ∧ (generateSitemapEntries baseOpts absDynTree).map SitemapEntry.url
      = ["https://example.com/post/$id/edit"]
    ∧ isDynamicRoute "/post/$id/edit" = true :=
  ⟨by decide, by decide, by decide⟩

/-- C8 witness: two instances built from `fixedLmInput` at different
construction times render the round-trip tree identically. -/
theorem idempotent_output_witness :
    fixedLmInput.lastmod = some "2023-05-05T00:00:00.000Z"
    ∧ mkGenerator fixedLmInput "A" = .ok fixedLmOpts
    ∧ mkGenerator fixedLmInput "B" = .ok fixedLmOpts
    ∧ generateXmlSitemap fixedLmOpts roundTripTree
      = generateXmlSitemap fixedLmOpts roundTripTree :=
  ⟨rfl, rfl, rfl,
    idempotent_output fixedLmInput "2023-05-05T00:00:00.000Z" "A" "B"
      roundTripTree fixedLmOpts fixedLmOpts rfl rfl rfl⟩

end TanStackSitemap
